import Mathlib

/- Verification of the core data pipeline of `final_main.py`
   (Weather-Data-Analysis-and-Visualization).

   The two core functions are modelled as a shallow embedding:

   * `filter_data` (the feature deriver, lines 48-110): timestamp parsing,
     sort by timestamp (pandas `sort_values`, default `kind="quicksort"`,
     which delegates to numpy's indirect introsort `aquicksort_`), derived
     columns (date, time, year, month, hour, season, Humidity(%)), column
     projection, CSV persistence, and the two fatal error paths
     (`except KeyError` and the generic `except Exception`, both of which
     print and call `sys.exit(1)`).

   * `fill_missing_values` (the imputer, lines 113-171): reads the persisted
     artifact back with `read_csv`, fills `Precip Type` with the literal
     "rain", and fills each of the four numeric columns with that column's
     mean when the column contains a missing value.

   Numbers are modelled as `ℚ` (exact rationals standing for the float64
   values; `DataFrame.to_csv` writes float64 with a round-trippable
   representation, so the numeric columns survive the CSV boundary
   value-exactly, which the reload model below reflects).  Missing values
   (NaN) are modelled as `Option.none`. -/

namespace Weather

/- ---------------------------------------------------------------------
   Model of numpy's indirect introsort (`aquicksort_` in
   numpy/core/src/npysort/quicksort.c.src), which is what
   `DataFrame.sort_values(by=..., kind="quicksort")` (the source's line 74,
   via `nargsort` / `ndarray.argsort`) executes on the timestamp keys.
   `tosort` is the index permutation being built; `key i` is the sort key of
   the row originally at position `i`.  Segments of more than
   `SMALL_QUICKSORT = 15` elements are partitioned (median-of-3 pivot,
   index swaps); smaller segments are finished with a (stable) insertion
   sort; a depth limit of `2 * msb(n)` guards against quadratic behaviour
   and falls back to heapsort.  The recursion is expressed with fuel
   (`n + 1` nesting levels suffice since each partition strictly shrinks
   the segment).  The index swaps in the partition step are what make the
   overall algorithm unstable. -/

def lget (l : List Nat) (i : Nat) : Nat := l.getD i 0

def lset (l : List Nat) (i : Nat) (x : Nat) : List Nat := l.set i x

def lswap (l : List Nat) (i j : Nat) : List Nat := lset (lset l i (lget l j)) j (lget l i)

/-- Insert index `i` into the already-sorted index list, after any entries
with an equal key: mirrors the shift loop `while (pj > pl && LT(vp, v[*pk]))`
of the insertion-sort phase, which shifts only strictly greater keys. -/
def insertIdx (key : Nat → Int) (i : Nat) : List Nat → List Nat
  | [] => [i]
  | j :: rest => if key i < key j then i :: j :: rest else j :: insertIdx key i rest

/-- The insertion-sort phase, as a left fold over the segment: each element
in turn is inserted into the sorted prefix built so far. -/
def insSortIdx (key : Nat → Int) (l : List Nat) : List Nat :=
  l.foldl (fun acc i => insertIdx key i acc) []

/-- Insertion-sort the segment `[pl, pr]` (inclusive) of the index list in
place, leaving everything outside the segment untouched. -/
def insertSeg (key : Nat → Int) (a : List Nat) (pl pr : Nat) : List Nat :=
  a.take pl ++ insSortIdx key ((a.drop pl).take (pr + 1 - pl)) ++ a.drop (pr + 1)

/-- The scan `do ++pi; while (LT(v[*pi], vp));`: increment, then keep
incrementing while the key is strictly below the pivot. -/
def scanUp (key : Nat → Int) (a : List Nat) (vp : Int) : Nat → Nat → Nat
  | i, 0 => i + 1
  | i, fuel + 1 =>
    let i' := i + 1
    if key (lget a i') < vp then scanUp key a vp i' fuel else i'

/-- The scan `do --pj; while (LT(vp, v[*pj]));`. -/
def scanDown (key : Nat → Int) (a : List Nat) (vp : Int) : Nat → Nat → Nat
  | j, 0 => j - 1
  | j, fuel + 1 =>
    let j' := j - 1
    if vp < key (lget a j') then scanDown key a vp j' fuel else j'

/-- The partition exchange loop: scan from both ends, swap out-of-place
indices, stop when the scans cross. -/
def npPartLoop (key : Nat → Int) (vp : Int) : List Nat → Nat → Nat → Nat → List Nat × Nat
  | a, pi, _, 0 => (a, pi)
  | a, pi, pj, fuel + 1 =>
    let pi' := scanUp key a vp pi (a.length + 1)
    let pj' := scanDown key a vp pj (a.length + 1)
    if pj' ≤ pi' then (a, pi')
    else npPartLoop key vp (lswap a pi' pj') pi' pj' fuel

/-- One median-of-3 partition step of `aquicksort_` on the segment
`[pl, pr]`; returns the updated index list and the pivot's final position. -/
def npPartition (key : Nat → Int) (a0 : List Nat) (pl pr : Nat) : List Nat × Nat :=
  let pm := pl + (pr - pl) / 2
  let a1 := if key (lget a0 pm) < key (lget a0 pl) then lswap a0 pm pl else a0
  let a2 := if key (lget a1 pr) < key (lget a1 pm) then lswap a1 pr pm else a1
  let a3 := if key (lget a2 pm) < key (lget a2 pl) then lswap a2 pm pl else a2
  let vp := key (lget a3 pm)
  let a4 := lswap a3 pm (pr - 1)
  let res := npPartLoop key vp a4 pl (pr - 1) (a4.length + 1)
  (lswap res.1 res.2 (pr - 1), res.2)

/-- The sift-down loop shared by both phases of numpy's indirect heapsort
`aheapsort_` (1-based heap positions, stored at list offset `base`). -/
def siftDown (key : Nat → Int) (base n : Nat) (tmp : Nat) : List Nat → Nat → Nat → Nat → List Nat
  | a, i, _, 0 => lset a (base + i - 1) tmp
  | a, i, j, fuel + 1 =>
    if j ≤ n then
      let j1 := if j < n ∧ key (lget a (base + j - 1)) < key (lget a (base + j)) then j + 1 else j
      if key tmp < key (lget a (base + j1 - 1)) then
        siftDown key base n tmp (lset a (base + i - 1) (lget a (base + j1 - 1))) j1 (j1 + j1) fuel
      else lset a (base + i - 1) tmp
    else lset a (base + i - 1) tmp

/-- Heap construction phase of `aheapsort_` (`for (l = n >> 1; l > 0; --l)`). -/
def npHeapify (key : Nat → Int) (base n : Nat) : Nat → List Nat → List Nat
  | 0, a => a
  | l + 1, a =>
    npHeapify key base n l (siftDown key base n (lget a (base + l)) a (l + 1) (2 * (l + 1)) (2 * n + 2))

/-- Extraction phase of `aheapsort_` (`for (; n > 1;)`). -/
def npHeapExtract (key : Nat → Int) (base : Nat) : Nat → List Nat → List Nat
  | 0, a => a
  | 1, a => a
  | n + 2, a =>
    let m := n + 2
    let tmp := lget a (base + m - 1)
    let a1 := lset a (base + m - 1) (lget a base)
    npHeapExtract key base (n + 1) (siftDown key base (n + 1) tmp a1 1 2 (2 * m + 2))

/-- numpy's indirect heapsort on the segment `[pl, pr]`, the introsort
depth-limit fallback. -/
def npAHeapsort (key : Nat → Int) (a : List Nat) (pl pr : Nat) : List Nat :=
  let n := pr + 1 - pl
  npHeapExtract key pl n (npHeapify key pl n (n / 2) a)

/-- The introsort recursion of `aquicksort_`: partition while the segment
has more than `SMALL_QUICKSORT = 15` remaining elements (`pr - pl > 15`),
with the smaller partition processed first (the larger one is pushed on the
explicit stack in the C code) and a single depth counter threaded through;
small segments are finished by insertion sort. -/
def npQsortSeg (key : Nat → Int) : Nat → List Nat → Nat → Nat → Int → List Nat × Int
  | 0, a, _, _, d => (a, d)
  | fuel + 1, a, pl, pr, d =>
    if pr - pl > 15 then
      if d < 0 then (npAHeapsort key a pl pr, d - 1)
      else
        let p := npPartition key a pl pr
        if p.2 - pl < pr - p.2 then
          let r1 := npQsortSeg key fuel p.1 pl (p.2 - 1) (d - 1)
          npQsortSeg key fuel r1.1 (p.2 + 1) pr r1.2
        else
          let r1 := npQsortSeg key fuel p.1 (p.2 + 1) pr (d - 1)
          npQsortSeg key fuel r1.1 pl (p.2 - 1) r1.2
    else (insertSeg key a pl pr, d)

/-- `ndarray.argsort(kind="quicksort")` on `n` keys: run the introsort on
the identity permutation with depth limit `2 * msb(n)`. -/
def npArgsort (key : Nat → Int) (n : Nat) : List Nat :=
  (npQsortSeg key (n + 1) (List.range n) 0 (n - 1) (2 * (Nat.log2 n : Int))).1

/- ---------------------------------------------------------------------
   Data model.

   A parsed timestamp (the result of `pd.to_datetime(..., utc=True)` on one
   cell) is abstracted as its UTC instant `epoch` (the sort key; equal
   `epoch` means an identical instant) together with the values of the
   accessors the source uses: `.dt.date`, `.dt.time`, `.dt.year`,
   `.dt.month` (1-indexed in pandas; stored here 0-based as `Fin 12`) and
   `.dt.hour`.  `date` and `time` objects are abstracted as integers. -/

structure Timestamp where
  epoch : Int
  dateV : Int
  timeV : Int
  yearV : Int
  monthV : Fin 12
  hourV : Nat
deriving DecidableEq

/-- One cell of the raw `Formatted Date` column: either a string that
`pd.to_datetime` parses to a timestamp, or an unparseable string (which
makes `to_datetime` raise, caught by the generic handler). -/
inductive DateVal
  | valid (ts : Timestamp)
  | invalid
deriving DecidableEq

/-- One raw input row (`EnglandWeather.csv` after `read_csv`): `NaN` cells
are `none`. -/
structure RawRow where
  formattedDate : DateVal
  summary : Option String
  precipType : Option String
  temperature : Option ℚ
  windSpeed : Option ℚ
  pressure : Option ℚ
  humidity : Option ℚ
deriving DecidableEq

/-- The raw dataframe passed to `filter_data`: per-column presence flags
(accessing an absent column raises `KeyError`) plus the rows. -/
structure RawTable where
  hasFormattedDate : Bool
  hasSummary : Bool
  hasPrecipType : Bool
  hasTemperature : Bool
  hasWindSpeed : Bool
  hasPressure : Bool
  hasHumidity : Bool
  rows : List RawRow
deriving DecidableEq

/-- `MONTH_NAMES` (source lines 28-31). -/
def MONTH_NAMES : List String :=
  ["January", "February", "March", "April", "May", "June",
   "July", "August", "September", "October", "November", "December"]

/-- `SEASON_MAP` (source lines 32-37), as an association list. -/
def SEASON_MAP : List (String × String) :=
  [("March", "Spring"), ("April", "Spring"), ("May", "Spring"),
   ("June", "Summer"), ("July", "Summer"), ("August", "Summer"),
   ("September", "Fall"), ("October", "Fall"), ("November", "Fall"),
   ("December", "Winter"), ("January", "Winter"), ("February", "Winter")]

/-- `MONTH_NAMES[m - 1]` (line 81); `monthV` is already 0-based here. -/
def monthName (m : Fin 12) : String := MONTH_NAMES.getD m.val ""

/-- `Series.map(SEASON_MAP)` on one cell (line 86): dictionary lookup,
`NaN` (= `none`) for a key that is not in the dictionary. -/
def seasonLookup (m : String) : Option String := SEASON_MAP.lookup m

/-- One row of the filtered/derived table `df_filtered` (lines 92-97):
columns date, time, year, month, hour, season, Summary, Precip Type,
Temperature (C), Wind Speed (km/h), Pressure (millibars), Humidity(%).
`year` is a string (line 79: `.astype(str)`). -/
structure FRow where
  date : Int
  time : Int
  year : String
  month : String
  hour : Nat
  season : Option String
  summary : Option String
  precipType : Option String
  temperature : Option ℚ
  windSpeed : Option ℚ
  pressure : Option ℚ
  humidityPct : Option ℚ
deriving DecidableEq

/-- The per-row feature derivation of lines 77-89: date/time/year/month/hour
from the parsed timestamp, season by mapping the freshly derived month
column through `SEASON_MAP`, `Humidity(%) = Humidity * 100`, and the
pass-through columns of the projection (lines 92-97). -/
def enrich (p : Timestamp × RawRow) : FRow :=
  { date := p.1.dateV
    time := p.1.timeV
    year := toString p.1.yearV
    month := monthName p.1.monthV
    hour := p.1.hourV
    season := seasonLookup (monthName p.1.monthV)
    summary := p.2.summary
    precipType := p.2.precipType
    temperature := p.2.temperature
    windSpeed := p.2.windSpeed
    pressure := p.2.pressure
    humidityPct := p.2.humidity.map (fun q => q * 100) }

/-- `pd.to_datetime(df["Formatted Date"], utc=True)` (line 73): parses the
whole column, failing (raising) if any cell is unparseable. -/
def parseDates : List RawRow → Option (List (Timestamp × RawRow))
  | [] => some []
  | r :: rest =>
    match r.formattedDate, parseDates rest with
    | .valid ts, some l => some ((ts, r) :: l)
    | _, _ => none

/-- Sort key of the parsed row at position `i`: the timestamp's UTC instant. -/
def pairKey (l : List (Timestamp × RawRow)) (i : Nat) : Int :=
  (l.get? i).elim 0 (fun p => p.1.epoch)

/-- The permutation `sort_values` computes for the parsed rows. -/
def sortPermFor (l : List (Timestamp × RawRow)) : List Nat :=
  npArgsort (pairKey l) l.length

/-- `df.sort_values(by="Formatted Date", inplace=True)` (line 74): reorder
the rows by the argsort permutation. -/
def sortAsc (l : List (Timestamp × RawRow)) : List (Timestamp × RawRow) :=
  (sortPermFor l).filterMap (fun i => l.get? i)

/-- The two fatal error classes of `filter_data`: `except KeyError` for a
missing required column (line 105) and the generic `except Exception`
(line 108) for any other transformation failure such as an unparseable
date.  Both print a message and call `sys.exit(1)`. -/
inductive FilterError
  | schemaError (column : String)
  | transformError
deriving DecidableEq

/-- The columns of the projection list (lines 92-96) that must come from the
input table; the derived columns always exist at that point.  Selecting with
a missing column raises `KeyError` naming the missing columns. -/
def missingSelected (t : RawTable) : List String :=
  (if t.hasSummary then [] else ["Summary"]) ++
  (if t.hasPrecipType then [] else ["Precip Type"]) ++
  (if t.hasTemperature then [] else ["Temperature (C)"]) ++
  (if t.hasWindSpeed then [] else ["Wind Speed (km/h)"]) ++
  (if t.hasPressure then [] else ["Pressure (millibars)"])

/-- The transformation performed by `filter_data` (lines 68-103), with the
source's evaluation order: access `Formatted Date` (line 73, `KeyError` if
absent), parse all dates (raises on an unparseable cell), sort (line 74),
derive columns — which accesses `Humidity` at line 89 (`KeyError` if
absent) — then project the fixed column list (line 97, `KeyError` naming
any missing pass-through column). -/
def filterDataEx (t : RawTable) : Except FilterError (List FRow) :=
  if t.hasFormattedDate = false then .error (.schemaError "Formatted Date")
  else
    match parseDates t.rows with
    | none => .error .transformError
    | some parsed =>
      if t.hasHumidity = false then .error (.schemaError "Humidity")
      else
        match missingSelected t with
        | [] => .ok ((sortAsc parsed).map enrich)
        | ms => .error (.schemaError (String.intercalate ", " ms))

/-- The parsed rows of a table (meaningful when parsing succeeds). -/
def parsedOf (t : RawTable) : List (Timestamp × RawRow) := (parseDates t.rows).getD []

/-- Observable outcome of a `filter_data` call: a returned dataframe, or a
printed error followed by `sys.exit(exitCode)`. -/
inductive FilterOutcome
  | ok (rows : List FRow)
  | fatal (e : FilterError) (exitCode : Nat)
deriving DecidableEq

/-- The heap cells relevant to a `filter_data` call: the dataframe object
the caller passed as the `data` argument, and the content of
`filtered_data.csv` on the storage boundary. -/
structure FDState where
  callerTable : RawTable
  storage : Option (List FRow)
deriving DecidableEq

/-- A full `filter_data` call.  Line 70 (`df = data.copy()`) makes every
in-place operation of the body (the `inplace=True` sort of line 74 and all
column assignments) act on a fresh object, never on the caller's object, so
the caller's cell holds its original value when the call returns; had the
source aliased (`df = data`), this state would have had to carry the
mutated table in `callerTable`.  On success the projected table is written
to `filtered_data.csv` (line 100); on either fatal error the process exits
with status 1 before the write, leaving the storage boundary untouched. -/
def filterDataRun (input : RawTable) (s0 : Option (List FRow)) : FilterOutcome × FDState :=
  match filterDataEx input with
  | .ok rows => (.ok rows, { callerTable := input, storage := some rows })
  | .error e => (.fatal e 1, { callerTable := input, storage := s0 })

/- ---------------------------------------------------------------------
   The imputer `fill_missing_values` (lines 113-171).  It does not take a
   dataframe: its only call shape is by file path; it re-reads the
   persisted artifact with `pd.read_csv` (line 138).  Reading the artifact
   back changes column representations: `date`/`time` become plain strings,
   the digit-string `year` column is inferred as integers, empty cells
   become NaN; the four float columns come back value-identical. -/

/-- One row of the dataframe `fill_missing_values` works on (the reloaded
`filtered_data.csv`). -/
structure LRow where
  date : Option String
  time : Option String
  year : Int
  month : Option String
  hour : Int
  season : Option String
  summary : Option String
  precipType : Option String
  temperature : Option ℚ
  windSpeed : Option ℚ
  pressure : Option ℚ
  humidityPct : Option ℚ
deriving DecidableEq, Inhabited

/-- `to_csv` writes an empty field for an empty string, and `read_csv`
reads an empty field as NaN. -/
def emptyToNone (s : String) : Option String := if s = "" then none else some s

/-- The same boundary effect on a nullable string column (NaN is written as
an empty field and read back as NaN). -/
def optEmptyToNone : Option String → Option String
  | none => none
  | some s => emptyToNone s

def digitsVal (l : List Char) : Int :=
  l.foldl (fun a c => a * 10 + ((c.toNat : Int) - 48)) 0

/-- `read_csv` integer inference on a digit-string cell. -/
def strToInt (s : String) : Int :=
  match s.data with
  | '-' :: ds => - digitsVal ds
  | ds => digitsVal ds

/-- `str()` of the abstract `datetime.date` object, as written by `to_csv`. -/
def dateStr (d : Int) : String := toString d

/-- `str()` of the abstract `datetime.time` object, as written by `to_csv`. -/
def timeStr (tv : Int) : String := toString tv

/-- The `to_csv` (line 100) / `read_csv` (line 138) round trip on one row of
the fixed filtered schema: `date` and `time` objects come back as their
string forms, the digit-string `year` column is inferred as int64, `hour`
stays integral, string columns come back with empty cells as NaN, and the
four float64 columns come back value-identical (float64 text round-trips). -/
def reloadRow (r : FRow) : LRow :=
  { date := emptyToNone (dateStr r.date)
    time := emptyToNone (timeStr r.time)
    year := strToInt r.year
    month := emptyToNone r.month
    hour := (r.hour : Int)
    season := optEmptyToNone r.season
    summary := optEmptyToNone r.summary
    precipType := optEmptyToNone r.precipType
    temperature := r.temperature
    windSpeed := r.windSpeed
    pressure := r.pressure
    humidityPct := r.humidityPct }

/-- The storage boundary crossing for the whole table. -/
def reloadTable (l : List FRow) : List LRow := l.map reloadRow

/-- `Series.mean()`: the arithmetic mean of the non-missing values of a
column, NaN (`none`) when every value is missing. -/
def colMean (c : List (Option ℚ)) : Option ℚ :=
  let xs := c.filterMap id
  if xs.isEmpty then none else some (xs.sum / (xs.length : ℚ))

/-- The per-column action of the numeric fill loop (lines 155-158): when the
column has a missing value, compute `mean_val = df[col].mean()` and
`fillna(mean_val)`; `fillna` with a NaN fill value (the all-missing case)
fills nothing.  A column without missing values is left alone by the guard
on line 156. -/
def colFiller (c : List (Option ℚ)) : Option ℚ → Option ℚ :=
  if c.any Option.isNone then
    match colMean c with
    | some m => fun v => some (v.getD m)
    | none => fun v => v
  else fun v => v

/-- The in-memory fill of lines 147-158 on the loaded table: Precip Type
missing cells become the literal "rain" (line 147); each of the four
numeric columns is filled with its own column mean, each mean computed from
the column's original values (the fills of the other columns cannot touch
it, so the four column treatments are independent). -/
def fillMissingCore (rows : List LRow) : List LRow :=
  let fT := colFiller (rows.map (fun r => r.temperature))
  let fW := colFiller (rows.map (fun r => r.windSpeed))
  let fP := colFiller (rows.map (fun r => r.pressure))
  let fH := colFiller (rows.map (fun r => r.humidityPct))
  rows.map (fun r =>
    { r with
      precipType := some (r.precipType.getD "rain")
      temperature := fT r.temperature
      windSpeed := fW r.windSpeed
      pressure := fP r.pressure
      humidityPct := fH r.humidityPct })

/-- Observable outcome of a `fill_missing_values` call: the cleaned
dataframe, or `sys.exit(1)` after the `FileNotFoundError` of line 135. -/
inductive FillOutcome
  | ok (rows : List LRow)
  | fatal (exitCode : Nat)
deriving DecidableEq

/-- A full `fill_missing_values()` call, its only call shape: take the
content of `filtered_data.csv` (exiting with status 1 when the artifact is
absent, lines 134-135), reload it, fill the five columns, and write
`filled_data.csv` (line 161). -/
def fillMissingRun (storageA : Option (List FRow)) (storageB : Option (List LRow)) :
    FillOutcome × Option (List LRow) :=
  match storageA with
  | none => (.fatal 1, storageB)
  | some fr =>
    let filled := fillMissingCore (reloadTable fr)
    (.ok filled, some filled)

/-- Modelled from the spec: the Imputer contract of section 4.2 also allows
`impute` to take "the in-memory result directly".  The source has no such
call shape (`fill_missing_values` accepts only file paths), so this
comparator applies the fill policy of lines 147-158 directly to the
in-memory `filter_data` output, for comparison with the reload-based path. -/
def imputeInMemory (rows : List FRow) : List FRow :=
  let fT := colFiller (rows.map (fun r => r.temperature))
  let fW := colFiller (rows.map (fun r => r.windSpeed))
  let fP := colFiller (rows.map (fun r => r.pressure))
  let fH := colFiller (rows.map (fun r => r.humidityPct))
  rows.map (fun r =>
    { r with
      precipType := some (r.precipType.getD "rain")
      temperature := fT r.temperature
      windSpeed := fW r.windSpeed
      pressure := fP r.pressure
      humidityPct := fH r.humidityPct })

/-- A dataframe cell together with its runtime type, for comparing tables
across the storage boundary the way `DataFrame.equals` would (values and
dtypes). -/
inductive PCell
  | str (s : String)
  | int (n : Int)
  | num (q : ℚ)
  | dateObj (d : Int)
  | timeObj (tv : Int)
  | null
deriving DecidableEq

/-- The cells of a filtered (in-memory) row, in artifact column order. -/
def cellsF (r : FRow) : List PCell :=
  [.dateObj r.date, .timeObj r.time, .str r.year, .str r.month, .int (r.hour : Int),
   r.season.elim .null .str, r.summary.elim .null .str, r.precipType.elim .null .str,
   r.temperature.elim .null .num, r.windSpeed.elim .null .num,
   r.pressure.elim .null .num, r.humidityPct.elim .null .num]

/-- The cells of a reloaded row, in artifact column order. -/
def cellsL (r : LRow) : List PCell :=
  [r.date.elim .null .str, r.time.elim .null .str, .int r.year, r.month.elim .null .str,
   .int r.hour, r.season.elim .null .str, r.summary.elim .null .str,
   r.precipType.elim .null .str, r.temperature.elim .null .num,
   r.windSpeed.elim .null .num, r.pressure.elim .null .num, r.humidityPct.elim .null .num]

def tableCellsF (l : List FRow) : List (List PCell) := l.map cellsF

def tableCellsL (l : List LRow) : List (List PCell) := l.map cellsL

/-- The non-imputed (frame) columns of a loaded row. -/
def frameFields (r : LRow) :
    Option String × Option String × Int × Option String × Int × Option String × Option String :=
  (r.date, r.time, r.year, r.month, r.hour, r.season, r.summary)

/-- The five imputed columns of a loaded table, column-wise. -/
def fiveColsL (l : List LRow) :
    List (Option String) × List (Option ℚ) × List (Option ℚ) × List (Option ℚ) × List (Option ℚ) :=
  (l.map (fun r => r.precipType), l.map (fun r => r.temperature),
   l.map (fun r => r.windSpeed), l.map (fun r => r.pressure),
   l.map (fun r => r.humidityPct))

/-- The five imputed columns of an in-memory filtered table, column-wise. -/
def fiveColsF (l : List FRow) :
    List (Option String) × List (Option ℚ) × List (Option ℚ) × List (Option ℚ) × List (Option ℚ) :=
  (l.map (fun r => r.precipType), l.map (fun r => r.temperature),
   l.map (fun r => r.windSpeed), l.map (fun r => r.pressure),
   l.map (fun r => r.humidityPct))

/-- Required input columns of `filter_data`, as one flag. -/
def missingRequiredB (t : RawTable) : Bool :=
  !(t.hasFormattedDate && t.hasSummary && t.hasPrecipType && t.hasTemperature &&
    t.hasWindSpeed && t.hasPressure && t.hasHumidity)

/-- The stable-argsort order on index lists: strictly smaller key, or equal
key and smaller original position.  A permutation of `range n` is pairwise
in this order exactly when it is the stable non-decreasing sort of the
keys. -/
def stableRel (key : Nat → Int) (a b : Nat) : Prop :=
  key a < key b ∨ (key a = key b ∧ a < b)

/- ---------------------------------------------------------------------
   Concrete tables used to witness or refute individual claims. -/

/-- A loaded row with every imputed column present; the base row for the
concrete tables below. -/
def baseL : LRow :=
  { date := some "2015-03-15", time := some "10:00:00", year := 2015, month := some "March",
    hour := 10, season := some "Spring", summary := some "Clear", precipType := some "rain",
    temperature := some 10, windSpeed := some 5, pressure := some 1012,
    humidityPct := some 50 }

/-- A two-row table whose `Temperature (C)` column is entirely missing. -/
def exC1rows : List LRow :=
  [{ baseL with temperature := none }, { baseL with temperature := none, summary := some "Foggy" }]

/-- A three-row table whose `Temperature (C)` column is `[10, missing, 30]`. -/
def exC2rows : List LRow :=
  [{ baseL with temperature := some 10 }, { baseL with temperature := none },
   { baseL with temperature := some 30, summary := some "Foggy" }]

/-- The middle row of `exC2rows`. -/
def exC2row : LRow := { baseL with temperature := none }

/-- A table for the amended frame/no-missing property: each numeric column
keeps at least one value and some cells are missing. -/
def exW1rows : List LRow :=
  [{ baseL with temperature := none, precipType := none },
   { baseL with windSpeed := none, pressure := none, humidityPct := none }]

/-- A two-row table whose `Temperature (C)` column is entirely missing,
exercising the all-missing mean. -/
def exC6rows : List LRow :=
  [{ baseL with temperature := none },
   { baseL with temperature := none, windSpeed := some 7 }]

/-- A fully-present table for idempotence. -/
def exC9rows : List LRow :=
  [baseL, { baseL with summary := some "Foggy", temperature := some 3 }]

/-- A timestamp with a given instant and month. -/
def mkTs (e : Int) (mo : Fin 12) : Timestamp :=
  { epoch := e, dateV := e, timeV := 0, yearV := 2015, monthV := mo, hourV := 10 }

/-- A raw row with a given date cell and summary marker. -/
def mkRaw (d : DateVal) (s : String) : RawRow :=
  { formattedDate := d, summary := some s, precipType := none,
    temperature := some 10, windSpeed := some 5, pressure := some 1012,
    humidity := none }

/-- A raw table with the full required column set. -/
def allCols (rows : List RawRow) : RawTable :=
  { hasFormattedDate := true, hasSummary := true, hasPrecipType := true,
    hasTemperature := true, hasWindSpeed := true, hasPressure := true,
    hasHumidity := true, rows := rows }

/-- Eighteen raw rows carrying the identical timestamp, with distinct
summary markers recording the original order. -/
def exC4tbl : RawTable :=
  allCols ((List.range 18).map (fun i => mkRaw (.valid (mkTs 0 2)) (toString i)))

/-- A three-row table with a timestamp tie, small enough for the
insertion-sort regime. -/
def exW4tbl : RawTable :=
  allCols [mkRaw (.valid (mkTs 5 0)) "a", mkRaw (.valid (mkTs 5 1)) "b",
           mkRaw (.valid (mkTs 3 2)) "c"]

/-- The `filter_data` output for `exW4tbl`. -/
def exW4out : List FRow := (filterDataEx exW4tbl).toOption.getD []

/-- A two-row valid raw table spanning two months. -/
def exT5tbl : RawTable :=
  allCols [mkRaw (.valid (mkTs 10 4)) "m", mkRaw (.valid (mkTs 3 11)) "d"]

/-- The `filter_data` output for `exT5tbl`. -/
def exT5out : List FRow := (filterDataEx exT5tbl).toOption.getD []

/-- A raw table whose required `Summary` column is absent. -/
def exC7tbl : RawTable :=
  { allCols [mkRaw (.valid (mkTs 1 0)) "x"] with hasSummary := false }

/-- A one-row valid raw table for the round-trip comparison. -/
def exC8tbl : RawTable := allCols [mkRaw (.valid (mkTs 100 2)) "Clear"]

/-- The `filter_data` output for `exC8tbl`. -/
def exC8out : List FRow := (filterDataEx exC8tbl).toOption.getD []

end Weather

namespace Weather

/- ---------------------------------------------------------------------
   Shared helper lemmas about the imputer. -/

theorem any_isSome_iff_filterMap_ne_nil (c : List (Option ℚ)) :
    c.any Option.isSome = true ↔ c.filterMap id ≠ [] := by
  rw [List.any_eq_true, Ne, List.filterMap_eq_nil]
  constructor
  · rintro ⟨x, hx, hs⟩ h
    rcases x with _ | q
    · simp at hs
    · exact Option.noConfusion (h (some q) hx)
  · intro h
    by_contra hall
    push_neg at hall
    refine h (fun a ha => ?_)
    rcases a with _ | q
    · rfl
    · exact absurd rfl (hall (some q) ha)

theorem colMean_eq_some (c : List (Option ℚ)) (h : c.filterMap id ≠ []) :
    colMean c = some ((c.filterMap id).sum / ((c.filterMap id).length : ℚ)) := by
  rw [colMean]
  simp only [List.isEmpty_iff]
  rw [if_neg h]

theorem colFiller_of_no_none (c : List (Option ℚ)) (h : c.any Option.isNone = false) :
    colFiller c = fun v => v := by
  rw [colFiller, h]
  simp

theorem colFiller_isSome (c : List (Option ℚ)) (v : Option ℚ) (hv : v ∈ c)
    (h : c.any Option.isNone = true → c.any Option.isSome = true) :
    (colFiller c v).isSome = true := by
  by_cases hn : c.any Option.isNone = true
  · have hs : c.filterMap id ≠ [] := (any_isSome_iff_filterMap_ne_nil c).mp (h hn)
    rw [colFiller, hn]
    simp only [if_true]
    rw [colMean_eq_some c hs]
    simp
  · rw [colFiller, Bool.eq_false_iff.mpr hn]
    simp only [Bool.false_eq_true, if_false]
    rcases v with _ | q
    · exact absurd (List.any_eq_true.mpr ⟨none, hv, rfl⟩) hn
    · rfl

theorem colFiller_of_none (c : List (Option ℚ)) (hn : c.any Option.isNone = true)
    (hs : c.filterMap id ≠ []) :
    colFiller c none = some ((c.filterMap id).sum / ((c.filterMap id).length : ℚ)) := by
  rw [colFiller, hn]
  simp only [if_true]
  rw [colMean_eq_some c hs]
  rfl

theorem fillMissingCore_get? (rows : List LRow) (i : Nat) :
    (fillMissingCore rows).get? i =
      (rows.get? i).map (fun r =>
        { r with
          precipType := some (r.precipType.getD "rain")
          temperature := colFiller (rows.map (fun s => s.temperature)) r.temperature
          windSpeed := colFiller (rows.map (fun s => s.windSpeed)) r.windSpeed
          pressure := colFiller (rows.map (fun s => s.pressure)) r.pressure
          humidityPct := colFiller (rows.map (fun s => s.humidityPct)) r.humidityPct }) := by
  rw [fillMissingCore]
  exact List.get?_map _ _ _

theorem fillMissingCore_mem (rows : List LRow) (r' : LRow) (h : r' ∈ fillMissingCore rows) :
    ∃ r ∈ rows, r' =
      { r with
        precipType := some (r.precipType.getD "rain")
        temperature := colFiller (rows.map (fun s => s.temperature)) r.temperature
        windSpeed := colFiller (rows.map (fun s => s.windSpeed)) r.windSpeed
        pressure := colFiller (rows.map (fun s => s.pressure)) r.pressure
        humidityPct := colFiller (rows.map (fun s => s.humidityPct)) r.humidityPct } := by
  rw [fillMissingCore] at h
  rcases List.mem_map.mp h with ⟨r, hr, hre⟩
  exact ⟨r, hr, hre.symm⟩

/- ---------------------------------------------------------------------
   Claim theorems. -/

/-- Claim C1, counterexample.  The claim asserts that after `impute` no
missing values remain in the five target columns, for *every* input table
with the fixed column set.  On a table whose `Temperature (C)` column is
entirely missing, `df[col].mean()` is NaN and `fillna(NaN)` fills nothing,
so the output still has missing temperatures. -/
theorem claim1_counterexample :
    ¬ (∀ r ∈ fillMissingCore exC1rows,
        r.precipType.isSome = true ∧ r.temperature.isSome = true ∧
        r.windSpeed.isSome = true ∧ r.pressure.isSome = true ∧
        r.humidityPct.isSome = true) := by decide

/-- Claim C1, amended: provided every numeric target column that contains a
missing value also contains at least one non-missing value, `impute`
leaves no missing value in the five target columns, preserves the row
count, and passes every other column's values through unchanged. -/
theorem claim1_amended (rows : List LRow)
    (hT : (rows.map (fun r => r.temperature)).any Option.isNone = true →
          (rows.map (fun r => r.temperature)).any Option.isSome = true)
    (hW : (rows.map (fun r => r.windSpeed)).any Option.isNone = true →
          (rows.map (fun r => r.windSpeed)).any Option.isSome = true)
    (hP : (rows.map (fun r => r.pressure)).any Option.isNone = true →
          (rows.map (fun r => r.pressure)).any Option.isSome = true)
    (hH : (rows.map (fun r => r.humidityPct)).any Option.isNone = true →
          (rows.map (fun r => r.humidityPct)).any Option.isSome = true) :
    (fillMissingCore rows).length = rows.length ∧
    (∀ r ∈ fillMissingCore rows,
      r.precipType.isSome = true ∧ r.temperature.isSome = true ∧
      r.windSpeed.isSome = true ∧ r.pressure.isSome = true ∧
      r.humidityPct.isSome = true) ∧
    (∀ i : Nat, ((fillMissingCore rows).get? i).map frameFields = (rows.get? i).map frameFields) := by
  refine ⟨by rw [fillMissingCore]; exact List.length_map _ _, ?_, ?_⟩
  · intro r' hr'
    rcases fillMissingCore_mem rows r' hr' with ⟨r, hr, rfl⟩
    refine ⟨rfl, ?_, ?_, ?_, ?_⟩
    · exact colFiller_isSome _ _ (List.mem_map.mpr ⟨r, hr, rfl⟩) hT
    · exact colFiller_isSome _ _ (List.mem_map.mpr ⟨r, hr, rfl⟩) hW
    · exact colFiller_isSome _ _ (List.mem_map.mpr ⟨r, hr, rfl⟩) hP
    · exact colFiller_isSome _ _ (List.mem_map.mpr ⟨r, hr, rfl⟩) hH
  · intro i
    rw [fillMissingCore_get?, Option.map_map]
    rcases rows.get? i with _ | r
    · rfl
    · rfl

/-- Claim C1, witness for the amended theorem at a concrete table with
missing cells in all four numeric columns. -/
theorem claim1_witness :
    (((exW1rows.map (fun r => r.temperature)).any Option.isNone = true →
      (exW1rows.map (fun r => r.temperature)).any Option.isSome = true) ∧
     ((exW1rows.map (fun r => r.windSpeed)).any Option.isNone = true →
      (exW1rows.map (fun r => r.windSpeed)).any Option.isSome = true)) ∧
    ((fillMissingCore exW1rows).length = exW1rows.length ∧
     (∀ r ∈ fillMissingCore exW1rows,
       r.precipType.isSome = true ∧ r.temperature.isSome = true ∧
       r.windSpeed.isSome = true ∧ r.pressure.isSome = true ∧
       r.humidityPct.isSome = true) ∧
     (∀ i : Nat, ((fillMissingCore exW1rows).get? i).map frameFields =
        (exW1rows.get? i).map frameFields)) :=
  ⟨⟨by decide, by decide⟩,
   claim1_amended exW1rows (by decide) (by decide) (by decide) (by decide)⟩

/-- Claim C2: for each numeric column independently, every missing cell is
replaced by the arithmetic mean of that column's non-missing input values
(a single global scalar per column, computed before any substitution). -/
theorem claim2_mean_imputation (rows : List LRow) (i : Nat) (r : LRow)
    (hr : rows.get? i = some r) :
    (r.temperature = none → (rows.map (fun s => s.temperature)).filterMap id ≠ [] →
      ∃ r', (fillMissingCore rows).get? i = some r' ∧
        r'.temperature = some (((rows.map (fun s => s.temperature)).filterMap id).sum /
          (((rows.map (fun s => s.temperature)).filterMap id).length : ℚ))) ∧
    (r.windSpeed = none → (rows.map (fun s => s.windSpeed)).filterMap id ≠ [] →
      ∃ r', (fillMissingCore rows).get? i = some r' ∧
        r'.windSpeed = some (((rows.map (fun s => s.windSpeed)).filterMap id).sum /
          (((rows.map (fun s => s.windSpeed)).filterMap id).length : ℚ))) ∧
    (r.pressure = none → (rows.map (fun s => s.pressure)).filterMap id ≠ [] →
      ∃ r', (fillMissingCore rows).get? i = some r' ∧
        r'.pressure = some (((rows.map (fun s => s.pressure)).filterMap id).sum /
          (((rows.map (fun s => s.pressure)).filterMap id).length : ℚ))) ∧
    (r.humidityPct = none → (rows.map (fun s => s.humidityPct)).filterMap id ≠ [] →
      ∃ r', (fillMissingCore rows).get? i = some r' ∧
        r'.humidityPct = some (((rows.map (fun s => s.humidityPct)).filterMap id).sum /
          (((rows.map (fun s => s.humidityPct)).filterMap id).length : ℚ))) := by
  have hget := fillMissingCore_get? rows i
  rw [hr] at hget
  have hmemT : r.temperature ∈ rows.map (fun s => s.temperature) :=
    List.mem_map.mpr ⟨r, List.get?_mem hr, rfl⟩
  have hmemW : r.windSpeed ∈ rows.map (fun s => s.windSpeed) :=
    List.mem_map.mpr ⟨r, List.get?_mem hr, rfl⟩
  have hmemP : r.pressure ∈ rows.map (fun s => s.pressure) :=
    List.mem_map.mpr ⟨r, List.get?_mem hr, rfl⟩
  have hmemH : r.humidityPct ∈ rows.map (fun s => s.humidityPct) :=
    List.mem_map.mpr ⟨r, List.get?_mem hr, rfl⟩
  refine ⟨fun h0 hs => ⟨_, hget, ?_⟩, fun h0 hs => ⟨_, hget, ?_⟩,
          fun h0 hs => ⟨_, hget, ?_⟩, fun h0 hs => ⟨_, hget, ?_⟩⟩
  · show colFiller (rows.map (fun s => s.temperature)) r.temperature = _
    rw [h0]
    exact colFiller_of_none _ (List.any_eq_true.mpr ⟨none, h0 ▸ hmemT, rfl⟩) hs
  · show colFiller (rows.map (fun s => s.windSpeed)) r.windSpeed = _
    rw [h0]
    exact colFiller_of_none _ (List.any_eq_true.mpr ⟨none, h0 ▸ hmemW, rfl⟩) hs
  · show colFiller (rows.map (fun s => s.pressure)) r.pressure = _
    rw [h0]
    exact colFiller_of_none _ (List.any_eq_true.mpr ⟨none, h0 ▸ hmemP, rfl⟩) hs
  · show colFiller (rows.map (fun s => s.humidityPct)) r.humidityPct = _
    rw [h0]
    exact colFiller_of_none _ (List.any_eq_true.mpr ⟨none, h0 ▸ hmemH, rfl⟩) hs

/-- Claim C2, witness: on the column `[10, missing, 30]` the missing cell is
imputed to `(10 + 30) / 2 = 20`. -/
theorem claim2_witness :
    (exC2rows.get? 1 = some exC2row ∧ exC2row.temperature = none ∧
     (exC2rows.map (fun s => s.temperature)).filterMap id ≠ []) ∧
    (∃ r', (fillMissingCore exC2rows).get? 1 = some r' ∧
      r'.temperature = some (((exC2rows.map (fun s => s.temperature)).filterMap id).sum /
        (((exC2rows.map (fun s => s.temperature)).filterMap id).length : ℚ))) ∧
    ((exC2rows.map (fun s => s.temperature)).filterMap id).sum /
      (((exC2rows.map (fun s => s.temperature)).filterMap id).length : ℚ) = 20 :=
  ⟨⟨by decide, by decide, by decide⟩,
   (claim2_mean_imputation exC2rows 1 exC2row (by decide)).1 (by decide) (by decide),
   by simp [exC2rows, baseL]; norm_num⟩

/-- Claim C3: `impute` replaces exactly the missing `Precip Type` cells with
the literal category "rain" and keeps the present ones; in particular, on a
table whose `Precip Type` column is entirely missing every row comes back
as "rain", and since the categorical fill is `fillna("rain")` — a total
operation that involves no computed statistic — it cannot fail, let alone
with `EmptyColumnError`. -/
theorem claim3_precip_fill (rows : List LRow) :
    (fillMissingCore rows).map (fun r => r.precipType) =
      rows.map (fun r => some (r.precipType.getD "rain")) := by
  rw [fillMissingCore, List.map_map]
  rfl

/-- Claim C6: evaluation at the failing input.  On a table whose
`Temperature (C)` column is entirely missing, `fill_missing_values`
returns normally (no `EmptyColumnError` exists anywhere in the source) and
leaves the column entirely missing — it does not substitute zero, but it
also does not fail as the spec mandates. -/
theorem claim6_all_missing_column :
    (fillMissingCore exC6rows).map (fun r => r.temperature) = [none, none] ∧
    (fillMissingCore exC6rows).map (fun r => r.precipType) =
      [some "rain", some "rain"] := by decide

/-- Claim C9: `impute` is the identity on a table with no missing value in
the five target columns. -/
theorem claim9_idempotent (rows : List LRow)
    (h : ∀ r ∈ rows, r.precipType.isSome = true ∧ r.temperature.isSome = true ∧
      r.windSpeed.isSome = true ∧ r.pressure.isSome = true ∧ r.humidityPct.isSome = true) :
    fillMissingCore rows = rows := by
  have noneT : (rows.map (fun r => r.temperature)).any Option.isNone = false := by
    rw [Bool.eq_false_iff]
    intro hc
    rcases List.any_eq_true.mp hc with ⟨v, hv, hvn⟩
    rcases List.mem_map.mp hv with ⟨r, hr, rfl⟩
    have := (h r hr).2.1
    rw [Option.isNone_iff_eq_none.mp hvn] at this
    exact Bool.noConfusion this
  have noneW : (rows.map (fun r => r.windSpeed)).any Option.isNone = false := by
    rw [Bool.eq_false_iff]
    intro hc
    rcases List.any_eq_true.mp hc with ⟨v, hv, hvn⟩
    rcases List.mem_map.mp hv with ⟨r, hr, rfl⟩
    have := (h r hr).2.2.1
    rw [Option.isNone_iff_eq_none.mp hvn] at this
    exact Bool.noConfusion this
  have noneP : (rows.map (fun r => r.pressure)).any Option.isNone = false := by
    rw [Bool.eq_false_iff]
    intro hc
    rcases List.any_eq_true.mp hc with ⟨v, hv, hvn⟩
    rcases List.mem_map.mp hv with ⟨r, hr, rfl⟩
    have := (h r hr).2.2.2.1
    rw [Option.isNone_iff_eq_none.mp hvn] at this
    exact Bool.noConfusion this
  have noneH : (rows.map (fun r => r.humidityPct)).any Option.isNone = false := by
    rw [Bool.eq_false_iff]
    intro hc
    rcases List.any_eq_true.mp hc with ⟨v, hv, hvn⟩
    rcases List.mem_map.mp hv with ⟨r, hr, rfl⟩
    have := (h r hr).2.2.2.2
    rw [Option.isNone_iff_eq_none.mp hvn] at this
    exact Bool.noConfusion this
  rw [fillMissingCore]
  simp only [colFiller_of_no_none _ noneT, colFiller_of_no_none _ noneW,
    colFiller_of_no_none _ noneP, colFiller_of_no_none _ noneH]
  have : ∀ r ∈ rows,
      ({ r with
         precipType := some (r.precipType.getD "rain")
         temperature := r.temperature
         windSpeed := r.windSpeed
         pressure := r.pressure
         humidityPct := r.humidityPct } : LRow) = r := by
    intro r hr
    rcases Option.isSome_iff_exists.mp (h r hr).1 with ⟨x, hx⟩
    rw [hx]
    simp only [Option.getD_some]
    rw [← hx]
  rw [List.map_congr_left this]
  simp

/-- Claim C9, witness at a concrete fully-present table. -/
theorem claim9_witness :
    (∀ r ∈ exC9rows, r.precipType.isSome = true ∧ r.temperature.isSome = true ∧
      r.windSpeed.isSome = true ∧ r.pressure.isSome = true ∧ r.humidityPct.isSome = true) ∧
    fillMissingCore exC9rows = exC9rows :=
  ⟨by decide, claim9_idempotent exC9rows (by decide)⟩

/- ---------------------------------------------------------------------
   Shared helper lemmas about the feature deriver. -/

theorem parseDates_no_invalid (rows : List RawRow) (l : List (Timestamp × RawRow))
    (h : parseDates rows = some l) :
    ∀ r ∈ rows, r.formattedDate ≠ DateVal.invalid := by
  induction rows generalizing l with
  | nil => intro r hr; simp at hr
  | cons r0 rest ih =>
    intro r hr
    rw [parseDates] at h
    cases hd : r0.formattedDate with
    | invalid => rw [hd] at h; exact absurd h (by simp)
    | valid ts =>
      cases hrest : parseDates rest with
      | none => rw [hd, hrest] at h; exact absurd h (by simp)
      | some l0 =>
        rcases List.mem_cons.mp hr with rfl | hr'
        · rw [hd]; exact fun hc => DateVal.noConfusion hc
        · exact ih l0 hrest r hr'

theorem missingSelected_nil_flags (t : RawTable) (h : missingSelected t = []) :
    t.hasSummary = true ∧ t.hasPrecipType = true ∧ t.hasTemperature = true ∧
    t.hasWindSpeed = true ∧ t.hasPressure = true := by
  rcases t with ⟨f1, f2, f3, f4, f5, f6, f7, rows⟩
  rw [missingSelected] at h
  cases f2 <;> cases f3 <;> cases f4 <;> cases f5 <;> cases f6 <;> simp_all

theorem filterDataEx_ok_elim (t : RawTable) (fr : List FRow)
    (h : filterDataEx t = .ok fr) :
    t.hasFormattedDate = true ∧ t.hasHumidity = true ∧ missingSelected t = [] ∧
    parseDates t.rows = some (parsedOf t) ∧ fr = (sortAsc (parsedOf t)).map enrich := by
  rw [filterDataEx] at h
  split at h
  · exact absurd h (by simp)
  · rename_i h1
    split at h
    · exact absurd h (by simp)
    · rename_i parsed hp
      split at h
      · exact absurd h (by simp)
      · rename_i h2
        split at h
        · rename_i hm
          have hfr : fr = (sortAsc parsed).map enrich := by
            injection h.symm
          have hparsed : parsedOf t = parsed := by rw [parsedOf, hp]; rfl
          have h1' : t.hasFormattedDate = true := by revert h1; cases t.hasFormattedDate <;> simp
          have h2' : t.hasHumidity = true := by revert h2; cases t.hasHumidity <;> simp
          refine ⟨h1', h2', hm, ?_, ?_⟩
          · rw [hparsed]; exact hp
          · rw [hparsed]; exact hfr
        · exact absurd h (by simp)

/-- Claim C5: every row of the `filter_data` output has its season equal to
`SEASON_MAP` applied to its month column, and `SEASON_MAP` is exactly the
fixed month-to-season table of the claim. -/
theorem claim5_season_table (t : RawTable) (fr : List FRow)
    (h : filterDataEx t = .ok fr) :
    (∀ r ∈ fr, r.season = seasonLookup r.month) ∧
    (seasonLookup "March" = some "Spring" ∧ seasonLookup "April" = some "Spring" ∧
     seasonLookup "May" = some "Spring" ∧ seasonLookup "June" = some "Summer" ∧
     seasonLookup "July" = some "Summer" ∧ seasonLookup "August" = some "Summer" ∧
     seasonLookup "September" = some "Fall" ∧ seasonLookup "October" = some "Fall" ∧
     seasonLookup "November" = some "Fall" ∧ seasonLookup "December" = some "Winter" ∧
     seasonLookup "January" = some "Winter" ∧ seasonLookup "February" = some "Winter") := by
  refine ⟨?_, by decide⟩
  rcases filterDataEx_ok_elim t fr h with ⟨-, -, -, -, rfl⟩
  intro r hr
  rcases List.mem_map.mp hr with ⟨p, -, rfl⟩
  rfl

/-- Claim C5, witness at a concrete two-row table. -/
theorem claim5_witness :
    (∀ r ∈ exT5out, r.season = seasonLookup r.month) ∧
    (seasonLookup "March" = some "Spring" ∧ seasonLookup "April" = some "Spring" ∧
     seasonLookup "May" = some "Spring" ∧ seasonLookup "June" = some "Summer" ∧
     seasonLookup "July" = some "Summer" ∧ seasonLookup "August" = some "Summer" ∧
     seasonLookup "September" = some "Fall" ∧ seasonLookup "October" = some "Fall" ∧
     seasonLookup "November" = some "Fall" ∧ seasonLookup "December" = some "Winter" ∧
     seasonLookup "January" = some "Winter" ∧ seasonLookup "February" = some "Winter") :=
  claim5_season_table exT5tbl exT5out (by rfl)

/-- Claim C7: when a required source column is absent or some timestamp
cell is unparseable, `filter_data` ends in a printed error plus
`sys.exit(1)` — a `KeyError` (schema error) or the generic transformation
error — and nothing is written to the storage boundary. -/
theorem claim7_fatal_errors (input : RawTable) (s0 : Option (List FRow))
    (h : missingRequiredB input = true ∨
         ∃ r ∈ input.rows, r.formattedDate = DateVal.invalid) :
    (∃ e, (filterDataRun input s0).1 = FilterOutcome.fatal e 1) ∧
    ((filterDataRun input s0).2).storage = s0 := by
  cases hfe : filterDataEx input with
  | ok fr =>
    exfalso
    rcases filterDataEx_ok_elim input fr hfe with ⟨h1, h2, hmsel, hp, -⟩
    rcases missingSelected_nil_flags input hmsel with ⟨f2, f3, f4, f5, f6⟩
    rcases h with hmr | ⟨r, hr, hinv⟩
    · rw [missingRequiredB, h1, h2, f2, f3, f4, f5, f6] at hmr
      exact Bool.noConfusion hmr
    · exact parseDates_no_invalid input.rows _ hp r hr hinv
  | error e =>
    refine ⟨⟨e, ?_⟩, ?_⟩
    · simp only [filterDataRun, hfe]
    · simp only [filterDataRun, hfe]

/-- Claim C7, witness: a table whose `Summary` column is absent. -/
theorem claim7_witness :
    (missingRequiredB exC7tbl = true ∨
     ∃ r ∈ exC7tbl.rows, r.formattedDate = DateVal.invalid) ∧
    ((∃ e, (filterDataRun exC7tbl none).1 = FilterOutcome.fatal e 1) ∧
     ((filterDataRun exC7tbl none).2).storage = none) :=
  ⟨Or.inl (by decide), claim7_fatal_errors exC7tbl none (Or.inl (by decide))⟩

/-- Claim C10: `filter_data` works on `data.copy()` (line 70), so after the
call — whether it returns the derived table or exits — the caller's table
object still holds exactly its original rows, row order, columns and
values. -/
theorem claim10_input_preserved (input : RawTable) (s0 : Option (List FRow)) :
    ((filterDataRun input s0).2).callerTable = input := by
  rw [filterDataRun]
  cases filterDataEx input <;> rfl

/- ---------------------------------------------------------------------
   Round-trip lemmas (claim C8). -/

theorem reload_temperature (l : List FRow) :
    (reloadTable l).map (fun r => r.temperature) = l.map (fun r => r.temperature) := by
  rw [reloadTable, List.map_map]; rfl

theorem reload_windSpeed (l : List FRow) :
    (reloadTable l).map (fun r => r.windSpeed) = l.map (fun r => r.windSpeed) := by
  rw [reloadTable, List.map_map]; rfl

theorem reload_pressure (l : List FRow) :
    (reloadTable l).map (fun r => r.pressure) = l.map (fun r => r.pressure) := by
  rw [reloadTable, List.map_map]; rfl

theorem reload_humidityPct (l : List FRow) :
    (reloadTable l).map (fun r => r.humidityPct) = l.map (fun r => r.humidityPct) := by
  rw [reloadTable, List.map_map]; rfl

theorem reload_precipType (l : List FRow) (hp : ∀ r ∈ l, r.precipType ≠ some "") :
    (reloadTable l).map (fun r => r.precipType) = l.map (fun r => r.precipType) := by
  rw [reloadTable, List.map_map]
  refine List.map_congr_left ?_
  intro r hr
  show optEmptyToNone r.precipType = r.precipType
  rcases hrp : r.precipType with _ | s
  · rfl
  · have hs : ¬ s = "" := fun hs => hp r hr (hrp.trans (by rw [hs]))
    rw [optEmptyToNone, emptyToNone, if_neg hs]

theorem fillMissingCore_cols (rows : List LRow) :
    fiveColsL (fillMissingCore rows) =
      ((rows.map (fun r => r.precipType)).map (fun v => some (v.getD "rain")),
       (rows.map (fun r => r.temperature)).map (colFiller (rows.map (fun r => r.temperature))),
       (rows.map (fun r => r.windSpeed)).map (colFiller (rows.map (fun r => r.windSpeed))),
       (rows.map (fun r => r.pressure)).map (colFiller (rows.map (fun r => r.pressure))),
       (rows.map (fun r => r.humidityPct)).map (colFiller (rows.map (fun r => r.humidityPct)))) := by
  rw [fiveColsL, fillMissingCore]
  simp only [List.map_map]
  rfl

theorem imputeInMemory_cols (rows : List FRow) :
    fiveColsF (imputeInMemory rows) =
      ((rows.map (fun r => r.precipType)).map (fun v => some (v.getD "rain")),
       (rows.map (fun r => r.temperature)).map (colFiller (rows.map (fun r => r.temperature))),
       (rows.map (fun r => r.windSpeed)).map (colFiller (rows.map (fun r => r.windSpeed))),
       (rows.map (fun r => r.pressure)).map (colFiller (rows.map (fun r => r.pressure))),
       (rows.map (fun r => r.humidityPct)).map (colFiller (rows.map (fun r => r.humidityPct)))) := by
  rw [fiveColsF, imputeInMemory]
  simp only [List.map_map]
  rfl

/-- Claim C8, counterexample.  Even on a one-row valid input, imputing the
reloaded artifact does not yield the same table as imputing the in-memory
`filter_data` output: reading the artifact back turns the string `year`
column into integers and the `date`/`time` objects into plain strings, so
the two results differ as dataframes (values with their dtypes). -/
theorem claim8_counterexample :
    tableCellsL (fillMissingCore (reloadTable exC8out)) ≠
      tableCellsF (imputeInMemory exC8out) := by decide

/-- Claim C8, amended: the source's `fill_missing_values` has a single call
shape — it always reads the persisted artifact — and the artifact boundary
is not lossless for the whole column set (year becomes numeric, date/time
become strings).  What does hold: imputing the reloaded artifact agrees
with imputing the in-memory `filter_data` output on the five imputed
columns, provided no `Precip Type` value is the empty string (an empty
string would be written as an empty CSV field and reloaded as missing). -/
theorem claim8_amended (t : RawTable) (fr : List FRow)
    (_hok : filterDataEx t = .ok fr) (hp : ∀ r ∈ fr, r.precipType ≠ some "") :
    ∃ out, fillMissingRun (some fr) none = (FillOutcome.ok out, some out) ∧
      fiveColsL out = fiveColsF (imputeInMemory fr) := by
  refine ⟨fillMissingCore (reloadTable fr), rfl, ?_⟩
  rw [fillMissingCore_cols, imputeInMemory_cols, reload_temperature, reload_windSpeed,
    reload_pressure, reload_humidityPct, reload_precipType fr hp]

/-- Claim C8, witness at a concrete one-row table. -/
theorem claim8_witness :
    (filterDataEx exC8tbl = .ok exC8out ∧ (∀ r ∈ exC8out, r.precipType ≠ some "")) ∧
    (∃ out, fillMissingRun (some exC8out) none = (FillOutcome.ok out, some out) ∧
      fiveColsL out = fiveColsF (imputeInMemory exC8out)) :=
  ⟨⟨by rfl, by decide⟩, claim8_amended exC8tbl exC8out (by rfl) (by decide)⟩

/- ---------------------------------------------------------------------
   Stability lemmas for the insertion-sort regime (claim C4). -/

theorem mem_insertIdx (key : Nat → Int) (i a : Nat) (l : List Nat) :
    a ∈ insertIdx key i l ↔ a = i ∨ a ∈ l := by
  induction l with
  | nil => simp [insertIdx]
  | cons j rest ih =>
    rw [insertIdx]
    by_cases hc : key i < key j
    · rw [if_pos hc]
      simp only [List.mem_cons]
    · rw [if_neg hc]
      simp only [List.mem_cons, ih]
      tauto

theorem pairwise_insertIdx (key : Nat → Int) (i : Nat) (l : List Nat)
    (hl : List.Pairwise (stableRel key) l) (hb : ∀ j ∈ l, j < i) :
    List.Pairwise (stableRel key) (insertIdx key i l) := by
  induction l with
  | nil => simp [insertIdx]
  | cons j rest ih =>
    rw [List.pairwise_cons] at hl
    obtain ⟨hjrest, hrest⟩ := hl
    rw [insertIdx]
    by_cases hc : key i < key j
    · rw [if_pos hc, List.pairwise_cons]
      constructor
      · intro b hb'
        rcases List.mem_cons.mp hb' with rfl | hbr
        · exact Or.inl hc
        · have hjb : key j ≤ key b := by
            rcases hjrest b hbr with h | ⟨h, -⟩
            · exact le_of_lt h
            · exact le_of_eq h
          exact Or.inl (lt_of_lt_of_le hc hjb)
      · rw [List.pairwise_cons]
        exact ⟨hjrest, hrest⟩
    · rw [if_neg hc, List.pairwise_cons]
      constructor
      · intro b hb'
        rcases (mem_insertIdx key i b rest).mp hb' with rfl | hbr
        · have hji : j < b := hb j (List.mem_cons_self j rest)
          rcases lt_or_eq_of_le (le_of_not_lt hc) with h | h
          · exact Or.inl h
          · exact Or.inr ⟨h, hji⟩
        · exact hjrest b hbr
      · exact ih hrest (fun x hx => hb x (List.mem_cons_of_mem j hx))

theorem pairwise_insSort_aux (key : Nat → Int) :
    ∀ (l acc : List Nat), List.Pairwise (stableRel key) acc →
      (∀ j ∈ acc, ∀ i ∈ l, j < i) → List.Pairwise (· < ·) l →
      List.Pairwise (stableRel key) (l.foldl (fun a i => insertIdx key i a) acc)
  | [], acc, hacc, _, _ => hacc
  | i :: l, acc, hacc, hbound, hlt => by
    rw [List.foldl_cons]
    rw [List.pairwise_cons] at hlt
    obtain ⟨hil, hl⟩ := hlt
    refine pairwise_insSort_aux key l (insertIdx key i acc) ?_ ?_ hl
    · exact pairwise_insertIdx key i acc hacc (fun j hj => hbound j hj i (List.mem_cons_self i l))
    · intro j hj i' hi'
      rcases (mem_insertIdx key i j acc).mp hj with rfl | hjacc
      · exact hil i' hi'
      · exact hbound j hjacc i' (List.mem_cons_of_mem i hi')

theorem insSortIdx_range_pairwise (key : Nat → Int) (n : Nat) :
    List.Pairwise (stableRel key) (insSortIdx key (List.range n)) := by
  rw [insSortIdx]
  exact pairwise_insSort_aux key (List.range n) [] List.Pairwise.nil
    (fun j hj => absurd hj (List.not_mem_nil j)) (List.pairwise_lt_range n)

theorem npArgsort_small (key : Nat → Int) (n : Nat) (h : n ≤ 16) :
    npArgsort key n = insSortIdx key (List.range n) := by
  rcases n with _ | m
  · rfl
  · rw [npArgsort, npQsortSeg]
    have hc : ¬ (m + 1 - 1 - 0 > 15) := by omega
    rw [if_neg hc]
    show insertSeg key (List.range (m + 1)) 0 (m + 1 - 1) = _
    rw [insertSeg]
    have h1 : (List.range (m + 1)).take 0 = [] := rfl
    have h2 : ((List.range (m + 1)).drop 0).take (m + 1 - 1 + 1 - 0) = List.range (m + 1) := by
      rw [List.drop_zero]
      refine List.take_of_length_le ?_
      rw [List.length_range]
      omega
    have h3 : (List.range (m + 1)).drop (m + 1 - 1 + 1) = [] := by
      refine List.drop_eq_nil_of_le ?_
      rw [List.length_range]
      omega
    rw [h1, h2, h3, List.nil_append, List.append_nil]

theorem parseDates_length (rows : List RawRow) (l : List (Timestamp × RawRow))
    (h : parseDates rows = some l) : l.length = rows.length := by
  induction rows generalizing l with
  | nil =>
    rw [parseDates] at h
    injection h with h'
    rw [← h']
    rfl
  | cons r rest ih =>
    rw [parseDates] at h
    cases hd : r.formattedDate with
    | invalid => rw [hd] at h; exact absurd h (by simp)
    | valid ts =>
      cases hrest : parseDates rest with
      | none => rw [hd, hrest] at h; exact absurd h (by simp)
      | some l0 =>
        rw [hd, hrest] at h
        injection h with h'
        rw [← h']
        simp [ih l0 hrest]

/-- Claim C4, counterexample.  On eighteen rows that all carry the identical
timestamp, a stable sort returns the rows in their original order, i.e. the
enriched parsed rows unpermuted.  The code's sort (pandas default
`kind="quicksort"`, numpy's introsort) leaves the small-array insertion
regime at more than sixteen rows and its partition step swaps tied rows out
of order, so `filter_data` returns the rows in a different order. -/
theorem claim4_counterexample :
    (filterDataEx exC4tbl).toOption ≠ some ((parsedOf exC4tbl).map enrich) := by decide

/-- Claim C4, amended: the `filter_data` output is the enriched parsed rows
reordered by the argsort permutation, and for input tables of at most
sixteen rows (where the sort is a single insertion-sort pass) that
permutation is pairwise in the stable order — non-decreasing timestamp
keys, with equal keys kept in increasing original position — i.e. the
output is the stable non-decreasing sort of the input.  For larger tables
the partition step can reorder equal timestamps, so stability is not
guaranteed in general. -/
theorem claim4_amended (t : RawTable) (fr : List FRow)
    (hlen : t.rows.length ≤ 16) (hok : filterDataEx t = .ok fr) :
    List.Pairwise (stableRel (pairKey (parsedOf t))) (sortPermFor (parsedOf t)) ∧
    fr = (sortAsc (parsedOf t)).map enrich := by
  rcases filterDataEx_ok_elim t fr hok with ⟨-, -, -, hp, hfr⟩
  refine ⟨?_, hfr⟩
  have hlen' : (parsedOf t).length ≤ 16 := by
    rw [parseDates_length t.rows (parsedOf t) hp]
    exact hlen
  rw [sortPermFor, npArgsort_small _ _ hlen']
  exact insSortIdx_range_pairwise _ _

/-- Claim C4, witness at a three-row table with a timestamp tie. -/
theorem claim4_witness :
    (exW4tbl.rows.length ≤ 16 ∧ filterDataEx exW4tbl = .ok exW4out) ∧
    (List.Pairwise (stableRel (pairKey (parsedOf exW4tbl))) (sortPermFor (parsedOf exW4tbl)) ∧
     exW4out = (sortAsc (parsedOf exW4tbl)).map enrich) :=
  ⟨⟨by decide, by rfl⟩, claim4_amended exW4tbl exW4out (by decide) (by rfl)⟩

end Weather
